import Mathlib

namespace WealthOfCities

/-!
Verification of the wealth-of-cities equilibrium solver.

This file embeds the repository's data model and operations in Lean 4:

* `solvers.py` — the `Solver` class: unpacking of the flat unknown vector
  `X` into the price / nominal-GDP / nominal-wage / firm-count blocks
  (`Solver.system`, `Solver.jacobian`), the lazily cached compiled numeric
  functions (`Solver._numeric_system`, `Solver._numeric_jacobian`,
  `Solver._clear_cache`), the `IslandsGuess` initial-guess generator and
  the `solve` driver.
* `model.py` — the symbolic equations of the multi-city model, embedded as
  real-valued functions of an environment holding the symbol values
  (sympy expressions are exact symbolic real arithmetic, so the faithful
  shallow embedding evaluates them over `ℝ`).
* `physical_distance.py` — construction of the pairwise physical-distance
  matrices and their normalization by the maximum entry.

Machine floats in the numeric layer are modelled as exact arithmetic
(`ℚ` for the vector plumbing, `ℝ` for the symbolic expressions).
-/

/-! ## Unknown-vector layout (`solvers.py`, `Solver.system` / `Solver.jacobian`)

`Solver.system` slices the flat unknown vector `X` (a numpy array, embedded
as a list) as

    P = np.append(np.ones(1.0), X[:N-1])
    Y = X[N-1:2*N-1]
    W = X[2*N-1:3*N-1]
    M = X[3*N-1:]

A Python slice `X[a:b]` is `(X.drop a).take (b - a)` and `X[a:]` is
`X.drop a`. -/

/-- The solved price components `X[:N-1]` (the numeraire is NOT part of the
unknown vector). -/
def unpackPsolved (N : ℕ) (X : List α) : List α :=
  X.take (N - 1)

/-- The full price vector passed to the compiled numeric function:
`np.append(np.ones(1.0), X[:N-1])`, i.e. the numeraire price 1 prepended to
the `N-1` solved components. -/
def unpackP (N : ℕ) (X : List ℚ) : List ℚ :=
  1 :: X.take (N - 1)

/-- The nominal-GDP block `X[N-1:2*N-1]`. -/
def unpackY (N : ℕ) (X : List α) : List α :=
  (X.drop (N - 1)).take N

/-- The nominal-wage block `X[2*N-1:3*N-1]`. -/
def unpackW (N : ℕ) (X : List α) : List α :=
  (X.drop (2 * N - 1)).take N

/-- The firm-count block `X[3*N-1:]`. -/
def unpackM (N : ℕ) (X : List α) : List α :=
  X.drop (3 * N - 1)

/-- Re-concatenation of the four blocks in the fixed order used when the
unknown vector is constructed (`np.hstack((P0, Y0, W0, M0))` in
`IslandsGuess.guess`): solved prices, then GDP, wages, firm counts. -/
def repack (N : ℕ) (X : List α) : List α :=
  unpackPsolved N X ++ unpackY N X ++ unpackW N X ++ unpackM N X

/-- Embeds `Solver.system`: unpacks `X`, prepends the numeraire price, and hands the
blocks to the compiled numeric residual function `F`. -/
def solverSystem (F : List ℚ → List ℚ → List ℚ → List ℚ → List ℚ)
    (N : ℕ) (X : List ℚ) : List ℚ :=
  F (unpackP N X) (unpackY N X) (unpackW N X) (unpackM N X)

/-- Embeds `Solver.jacobian`: identical unpacking, handing the blocks to the
compiled numeric Jacobian function `J`. -/
def solverJacobian (J : List ℚ → List ℚ → List ℚ → List ℚ → List (List ℚ))
    (N : ℕ) (X : List ℚ) : List (List ℚ) :=
  J (unpackP N X) (unpackY N X) (unpackW N X) (unpackM N X)

/-! ## Initial guess (`solvers.py`, `IslandsGuess.guess`)

The guess is `np.hstack((P0, Y0, W0, M0))` where `P0 = np.repeat(1.0, N-1)`
and, for each `h` in `enumerate(self.city.population[:self.model.N])`,
`Y0[h]`, `W0[h]`, `M0[h]` are the closed-form single-city solutions computed
by `SingleCityModel.compute_nominal_gdp` / `compute_nominal_wage` /
`compute_number_firms` from that city's own population and the model
parameters.  The `SingleCityModel` closed forms live in `models.py`; here
they enter as the function arguments `gdpFn`, `wageFn`, `firmsFn`, applied
to the shared parameters and one city's population. -/

/-- The model's fixed global parameters (`models.py` parameter bundle handed
around as `self.model.params`): fixed cost `f`, labor-supply scaling `beta`,
base productivity `phi`, iceberg trade cost `tau`, and the per-city
elasticity of substitution `theta`. -/
structure Params where
  f : ℚ
  beta : ℚ
  phi : ℚ
  tau : ℚ
  theta : List ℚ
  deriving DecidableEq

/-- Embeds `IslandsGuess.guess`: prices initialized uniformly to 1 (length `N-1`),
then the per-city autarky GDP, wage and firm-count values stacked in that
order.  Each of the three loops consumes only `population[:N]` entrywise. -/
def islandsGuess (gdpFn wageFn firmsFn : Params → ℚ → ℚ)
    (params : Params) (N : ℕ) (population : List ℚ) : List ℚ :=
  List.replicate (N - 1) 1
    ++ (population.take N).map (gdpFn params)
    ++ (population.take N).map (wageFn params)
    ++ (population.take N).map (firmsFn params)

/-! ## Lazily cached compiled numeric functions (`solvers.py`) -/

/-- The cache attributes of a `Solver` instance:
`__numeric_jacobian` and `__numeric_system`, each `None` until first use. -/
structure SolverCache (Fn : Type) where
  numericJacobian : Option Fn
  numericSystem : Option Fn
  deriving DecidableEq

/-- A fresh `Solver` instance: both cache attributes are `None`. -/
def SolverCache.init {Fn : Type} : SolverCache Fn := ⟨none, none⟩

/-- Embeds `Solver._clear_cache`: resets both cached values to `None`. -/
def SolverCache.clearCache {Fn : Type} (_s : SolverCache Fn) : SolverCache Fn :=
  ⟨none, none⟩

/-- One access of the `Solver._numeric_system` property.  `compileSystem`
stands for the deterministic compilation
`sym.lambdify(self.model._symbolic_args, self.model._symbolic_system,
self._modules)` of the instance's fixed symbolic system: if the cache is
empty the compiled function is stored and returned, otherwise the cached
function is returned and the state is untouched. -/
def SolverCache.numericSystemAccess {Fn : Type} (compileSystem : Fn)
    (s : SolverCache Fn) : Fn × SolverCache Fn :=
  match s.numericSystem with
  | some g => (g, s)
  | none => (compileSystem, { s with numericSystem := some compileSystem })

/-- One access of the `Solver._numeric_jacobian` property; same caching
discipline over `sym.lambdify(..., self.model._symbolic_jacobian, ...)`. -/
def SolverCache.numericJacobianAccess {Fn : Type} (compileJacobian : Fn)
    (s : SolverCache Fn) : Fn × SolverCache Fn :=
  match s.numericJacobian with
  | some g => (g, s)
  | none => (compileJacobian, { s with numericJacobian := some compileJacobian })

/-- Runs `k+1` successive accesses of `Solver._numeric_system`, returning the
last access's value and state. -/
def SolverCache.numericSystemAccessIter {Fn : Type} (compileSystem : Fn)
    (s : SolverCache Fn) : ℕ → Fn × SolverCache Fn
  | 0 => s.numericSystemAccess compileSystem
  | k + 1 => (s.numericSystemAccessIter compileSystem k).2.numericSystemAccess compileSystem

/-- Runs `k+1` successive accesses of `Solver._numeric_jacobian`. -/
def SolverCache.numericJacobianAccessIter {Fn : Type} (compileJacobian : Fn)
    (s : SolverCache Fn) : ℕ → Fn × SolverCache Fn
  | 0 => s.numericJacobianAccess compileJacobian
  | k + 1 => (s.numericJacobianAccessIter compileJacobian k).2.numericJacobianAccess compileJacobian

/-! ## Root finding (`solvers.py`, `Solver.solve`) -/

/-- The result object of the external root finder (scipy's
`OptimizeResult`): solution array `x`, convergence flag `success`,
diagnostic `message`. -/
structure OptimizeResult where
  x : List ℚ
  success : Bool
  message : String
  deriving DecidableEq

/-- Sup-norm of a residual vector, used for the convergence check. -/
def residualNorm (r : List ℚ) : ℚ :=
  r.foldr (fun a m => max |a| m) 0

/-- Modelled from the spec: the external root finder `scipy.optimize.root`
called by `Solver.solve` (§4.5: "an iterative multivariate root-finding
algorithm (Newton-type, e.g. a hybrid Powell/Newton method)") — iteration
is abstracted over the update rule `step`; the loop stops as soon as the
residual is within tolerance or the iteration budget is exhausted. -/
def rootIter (F step : List ℚ → List ℚ) (tol : ℚ) : ℕ → List ℚ → List ℚ
  | 0, x => x
  | k + 1, x => if residualNorm (F x) ≤ tol then x else rootIter F step tol k (step x)

/-- Modelled from the spec: the result reported by `scipy.optimize.root`
(§4.5: "returning (solution vector, convergence flag, diagnostic message,
iteration/evaluation counts)"): the final iterate with `success` true and a
convergence message when its residual is within tolerance, else `success`
false with the solver's non-progress diagnostic. -/
def optimizeRoot (F step : List ℚ → List ℚ) (x0 : List ℚ) (tol : ℚ)
    (maxiter : ℕ) : OptimizeResult :=
  let xf := rootIter F step tol maxiter x0
  if residualNorm (F xf) ≤ tol then
    { x := xf, success := true, message := "The solution converged." }
  else
    { x := xf, success := false,
      message := "The iteration is not making good progress." }

/-- Embeds `Solver.solve`: chooses the exact-Jacobian update or the
finite-difference update according to `with_jacobian`, seeds the root
finder with the initial guess, and returns the root finder's result object
unchanged. -/
def solve (F jacStep fdStep : List ℚ → List ℚ) (withJacobian : Bool)
    (guess : List ℚ) (tol : ℚ) (maxiter : ℕ) : OptimizeResult :=
  optimizeRoot F (if withJacobian then jacStep else fdStep) guess tol maxiter

/-! ## C2: construction-time validation of the elasticity of substitution -/

/-- Modelled from the spec: parameter validation at model construction
(`models.Model`, file `models.py`, not under `src/`).  §7: "elasticity of
substitution equal to 1 for any city (markup undefined) — must be detected
and reported before constructing the numeric system"; §8: "theta[j]=1 for
some city j must cause a fatal construction-time error before any
root-finding attempt begins". -/
def modelConstruct (p : Params) : Except String Params :=
  if 1 ∈ p.theta then
    Except.error
      "elasticity of substitution theta must differ from 1 in every city: the markup theta/(theta-1) is undefined"
  else
    Except.ok p

/-- The construction-then-solve pipeline: the numeric system is compiled
and the root finder is run only for a model that passed construction-time
validation. -/
def buildAndSolve (p : Params) (F : Params → List ℚ → List ℚ)
    (jacStep fdStep : List ℚ → List ℚ) (withJacobian : Bool)
    (guess : List ℚ) (tol : ℚ) (maxiter : ℕ) : Except String OptimizeResult :=
  (modelConstruct p).map
    (fun m => solve (F m) jacStep fdStep withJacobian guess tol maxiter)

/-! ## Symbolic model equations (`model.py`)

`model.py` builds sympy expressions over the module-level symbols
`f`, `phi`, the deferred vectors `theta`, `S`, `Y`, `P`, `W`, `M` and the
matrix symbol `delta`.  sympy expressions denote exact real arithmetic, so
each expression-building function is embedded as a real-valued function of
an environment binding those symbols. -/

/-- The values bound to the symbols declared at the top of `model.py`:
`num_cities`, the parameters `f` and `phi`, the elasticity of substitution
`theta`, the economic distance `delta`, the labor supply `S`, and the
variables `Y` (nominal GDP), `P` (price level), `W` (nominal wage), `M`
(number of firms). -/
structure Env where
  N : ℕ
  f : ℝ
  phi : ℝ
  theta : ℕ → ℝ
  delta : ℕ → ℕ → ℝ
  S : ℕ → ℝ
  Y : ℕ → ℝ
  P : ℕ → ℝ
  W : ℕ → ℝ
  M : ℕ → ℝ

noncomputable section

/-- Embeds `labor_productivity(h, j)`: `phi / delta[h, j]`. -/
def labor_productivity (e : Env) (h j : ℕ) : ℝ :=
  e.phi / e.delta h j

/-- Embeds `marginal_costs(h, j)`: `W[h] / labor_productivity(h, j)`. -/
def marginal_costs (e : Env) (h j : ℕ) : ℝ :=
  e.W h / labor_productivity e h j

/-- Embeds `mark_up(j)`: `theta[j] / (theta[j] - 1)`. -/
def mark_up (e : Env) (j : ℕ) : ℝ :=
  e.theta j / (e.theta j - 1)

/-- Embeds `optimal_price(h, j)`: `mark_up(j) * marginal_costs(h, j)`. -/
def optimal_price (e : Env) (h j : ℕ) : ℝ :=
  mark_up e j * marginal_costs e h j

/-- Embeds `real_gdp(i)`: `Y[i] / P[i]`. -/
def real_gdp (e : Env) (i : ℕ) : ℝ :=
  e.Y i / e.P i

/-- Embeds `relative_price(price, j)`: `price / P[j]`. -/
def relative_price (e : Env) (price : ℝ) (j : ℕ) : ℝ :=
  price / e.P j

/-- Embeds `quantity_demand(price, j)`:
`relative_price(price, j)**(-theta[j]) * real_gdp(j)` (real exponent). -/
def quantity_demand (e : Env) (price : ℝ) (j : ℕ) : ℝ :=
  relative_price e price j ^ (-(e.theta j)) * real_gdp e j

/-- Embeds `labor_demand(quantity, h, j)`:
`(quantity / labor_productivity(h, j)) + f`. -/
def labor_demand (e : Env) (quantity : ℝ) (h j : ℕ) : ℝ :=
  quantity / labor_productivity e h j + e.f

/-- Embeds `cost(quantity, h, j)`: `labor_demand(quantity, h, j) * W[h]`. -/
def cost (e : Env) (quantity : ℝ) (h j : ℕ) : ℝ :=
  labor_demand e quantity h j * e.W h

/-- Embeds `revenue(price, quantity)`: `price * quantity`. -/
def revenue (price quantity : ℝ) : ℝ :=
  price * quantity

/-- Embeds `total_exports(h)`: sum over all destinations `j` of
`M[h] * revenue(p_star, q_star)` at the optimal price `p_star =
optimal_price(h, j)` and demanded quantity `q_star`. -/
def total_exports (e : Env) (h : ℕ) : ℝ :=
  ∑ j in Finset.range e.N,
    e.M h * revenue (optimal_price e h j) (quantity_demand e (optimal_price e h j) j)

/-- Embeds `total_imports(h)`: sum over all origins `j` of
`M[j] * revenue(p_star, q_star)` at `p_star = optimal_price(j, h)` and the
quantity demanded in `h`. -/
def total_imports (e : Env) (h : ℕ) : ℝ :=
  ∑ j in Finset.range e.N,
    e.M j * revenue (optimal_price e j h) (quantity_demand e (optimal_price e j h) h)

/-- Embeds `total_cost(h)`: sum over `j` of `cost(q_star, h, j)`. -/
def total_cost (e : Env) (h : ℕ) : ℝ :=
  ∑ j in Finset.range e.N,
    cost e (quantity_demand e (optimal_price e h j) j) h j

/-- Embeds `total_revenue(h)`: sum over `j` of `revenue(p_star, q_star)`. -/
def total_revenue (e : Env) (h : ℕ) : ℝ :=
  ∑ j in Finset.range e.N,
    revenue (optimal_price e h j) (quantity_demand e (optimal_price e h j) j)

/-- Embeds `total_profits(h)`: `total_revenue(h) - total_cost(h)`. -/
def total_profits (e : Env) (h : ℕ) : ℝ :=
  total_revenue e h - total_cost e h

/-- Embeds `total_labor_demand(h)`: sum over `j` of `labor_demand(q_star, h, j)`. -/
def total_labor_demand (e : Env) (h : ℕ) : ℝ :=
  ∑ j in Finset.range e.N,
    labor_demand e (quantity_demand e (optimal_price e h j) j) h j

/-- Embeds `goods_market_clearing(h)`: `total_exports(h) - total_imports(h)`. -/
def goods_market_clearing (e : Env) (h : ℕ) : ℝ :=
  total_exports e h - total_imports e h

/-- Embeds `labor_market_clearing(h)`: `S[h] - total_labor_demand(h)`. -/
def labor_market_clearing (e : Env) (h : ℕ) : ℝ :=
  e.S h - total_labor_demand e h

/-- Embeds `resource_constraint(h)`: `Y[h] - S[h] * W[h]`. -/
def resource_constraint (e : Env) (h : ℕ) : ℝ :=
  e.Y h - e.S h * e.W h

/-- Modelled from the spec: the assembly of the full residual system
(`models.Model._symbolic_system`, file `models.py`, not under `src/`).
§4.1: "given the registry of symbols/parameters and the city count N,
produce a list of exactly 3N scalar symbolic expressions representing, for
every city h: (goods-market clearing), (labor-market clearing),
(resource/budget constraint)", the three equations being the ones built in
`model.py`. -/
def symbolic_system (e : Env) : List ℝ :=
  (List.range e.N).flatMap fun h =>
    [goods_market_clearing e h, labor_market_clearing e h, resource_constraint e h]

end

noncomputable section

/-- geopy's spherical earth radius, in kilometers. -/
def EARTH_RADIUS : ℝ := 6372.795

/-- Degrees to radians. -/
def radians (d : ℝ) : ℝ := d * (Real.pi / 180)

/-- Embeds `geopy.distance.great_circle(c₁, c₂).kilometers`: the central-angle
(spherical law of cosines) great-circle distance between two
(latitude, longitude) pairs in degrees. -/
def great_circle (c₁ c₂ : ℝ × ℝ) : ℝ :=
  EARTH_RADIUS * Real.arccos (Real.sin (radians c₁.1) * Real.sin (radians c₂.1)
    + Real.cos (radians c₁.1) * Real.cos (radians c₂.1)
      * Real.cos (radians c₁.2 - radians c₂.2))

/-- Embeds `compute_physical_distance`: the double loop filling
`distance[i, j] = dist(coords_i, coords_j)` for a distance measure. -/
def compute_physical_distance (dist : ℝ × ℝ → ℝ × ℝ → ℝ)
    (data : List (ℝ × ℝ)) : List (List ℝ) :=
  data.map fun c₁ => data.map fun c₂ => dist c₁ c₂

/-- Entry `m[i][j]` of a list-of-lists matrix, as a total function
(0 outside the index range). -/
def entry (m : List (List ℝ)) (i j : ℕ) : ℝ :=
  (m.getD i []).getD j 0

/-- Embeds `matrix.max()`: the maximum entry of a matrix with non-negative
entries, as an iterated fold. -/
def matrixMax (m : List (List ℝ)) : ℝ :=
  (m.map fun row => row.foldr max 0).foldr max 0

/-- Embeds `matrix / matrix.max()`: the entrywise normalization producing
`normed_great_circle_distance` and `normed_vincenty_distance`. -/
def normalizeByMax (m : List (List ℝ)) : List (List ℝ) :=
  m.map fun row => row.map fun x => x / matrixMax m

end

/-! ## C1: unknown-vector length and unpack/repack identity -/

theorem repack_eq (N : ℕ) (X : List α) : repack N X = X := by
  unfold repack unpackPsolved unpackY unpackW unpackM
  have h1 : X.take (N - 1) ++ X.drop (N - 1) = X := List.take_append_drop _ _
  have h2 : (X.drop (N - 1)).take N ++ (X.drop (N - 1)).drop N = X.drop (N - 1) :=
    List.take_append_drop _ _
  have h3 : (X.drop (N - 1)).drop N = X.drop (2 * N - 1) := by
    rw [List.drop_drop]
    congr 1
    omega
  have h4 : (X.drop (2 * N - 1)).take N ++ (X.drop (2 * N - 1)).drop N
      = X.drop (2 * N - 1) := List.take_append_drop _ _
  have h5 : (X.drop (2 * N - 1)).drop N = X.drop (3 * N - 1) := by
    rw [List.drop_drop]
    congr 1
    omega
  simp only [List.append_assoc]
  calc X.take (N - 1) ++ ((X.drop (N - 1)).take N
        ++ ((X.drop (2 * N - 1)).take N ++ X.drop (3 * N - 1)))
      = X.take (N - 1) ++ ((X.drop (N - 1)).take N
        ++ ((X.drop (2 * N - 1)).take N ++ (X.drop (2 * N - 1)).drop N)) := by
        rw [h5]
    _ = X.take (N - 1) ++ ((X.drop (N - 1)).take N ++ X.drop (2 * N - 1)) := by
        rw [h4]
    _ = X.take (N - 1) ++ ((X.drop (N - 1)).take N ++ (X.drop (N - 1)).drop N) := by
        rw [h3]
    _ = X.take (N - 1) ++ X.drop (N - 1) := by rw [h2]
    _ = X := h1

/-- C1 counterexample: the unknown vector does NOT have length `4N-3`:
at `N = 2` the guess produced by `IslandsGuess.guess` stacks a price block
of length `N-1 = 1` and three blocks of length `N = 2`, so its length is
`7 = 4·2-1`, not `4·2-3 = 5`. -/
theorem unknown_vector_length_counterexample :
    (islandsGuess (fun _ p => p) (fun _ p => p) (fun _ p => p)
        ⟨1, 1, 1, 0, [10, 10]⟩ 2 [7, 8]).length ≠ 4 * 2 - 3 := by
  decide

/-- C1 (amended): for every city count `N ≥ 2`, the unknown vector produced
by the initial-guess generator has length exactly `4N-1` (price block of
length `N-1`, then the GDP, wage and firm-count blocks of length `N` each);
unpacking an unknown vector of that length by the fixed slicing scheme of
`Solver.system` yields blocks of lengths `N-1`, `N`, `N`, `N`, and
re-concatenating the blocks in order restores the vector. -/
theorem unknown_vector_layout (N : ℕ) (hN : 2 ≤ N)
    (gdpFn wageFn firmsFn : Params → ℚ → ℚ) (params : Params)
    (population : List ℚ) (hpop : population.length = N)
    (X : List ℚ) (hX : X.length = 4 * N - 1) :
    (islandsGuess gdpFn wageFn firmsFn params N population).length = 4 * N - 1
      ∧ (unpackPsolved N X).length = N - 1
      ∧ (unpackY N X).length = N
      ∧ (unpackW N X).length = N
      ∧ (unpackM N X).length = N
      ∧ repack N X = X := by
  refine ⟨?_, ?_, ?_, ?_, ?_, repack_eq N X⟩
  · simp only [islandsGuess, List.length_append, List.length_replicate, List.length_map,
      List.length_take, hpop, min_self]
    omega
  · rw [unpackPsolved, List.length_take, hX, min_eq_left (by omega)]
  · rw [unpackY, List.length_take, List.length_drop, hX, min_eq_left (by omega)]
  · rw [unpackW, List.length_take, List.length_drop, hX, min_eq_left (by omega)]
  · rw [unpackM, List.length_drop, hX]
    omega

/-- C1 witness: at `N = 2` and the concrete unknown vector `[2,3,4,5,6,7,8]`
of length `4·2-1 = 7`, the guess has length 7, the blocks have lengths
1, 2, 2, 2, and they re-concatenate to the original vector. -/
theorem unknown_vector_layout_witness :
    (islandsGuess (fun _ p => p) (fun _ p => p) (fun _ p => p)
        ⟨1, 1, 1, 0, [10, 10]⟩ 2 [7, 8]).length = 4 * 2 - 1
      ∧ (unpackPsolved 2 ([2, 3, 4, 5, 6, 7, 8] : List ℚ)).length = 2 - 1
      ∧ (unpackY 2 ([2, 3, 4, 5, 6, 7, 8] : List ℚ)).length = 2
      ∧ (unpackW 2 ([2, 3, 4, 5, 6, 7, 8] : List ℚ)).length = 2
      ∧ (unpackM 2 ([2, 3, 4, 5, 6, 7, 8] : List ℚ)).length = 2
      ∧ repack 2 ([2, 3, 4, 5, 6, 7, 8] : List ℚ) = [2, 3, 4, 5, 6, 7, 8] :=
  unknown_vector_layout 2 (by decide) (fun _ p => p) (fun _ p => p) (fun _ p => p)
    ⟨1, 1, 1, 0, [10, 10]⟩ [7, 8] (by decide) [2, 3, 4, 5, 6, 7, 8] (by decide)

/-! ## C3: the numeraire price is never solved for -/

/-- C3: in every evaluation of `Solver.system` and `Solver.jacobian`, the
price vector handed to the compiled numeric function is the numeraire price
1 prepended to the `N-1` solved price components `X[:N-1]` taken from the
unknown vector: its first entry is 1 and its tail is exactly `X[:N-1]`. -/
theorem numeraire_never_solved (F : List ℚ → List ℚ → List ℚ → List ℚ → List ℚ)
    (J : List ℚ → List ℚ → List ℚ → List ℚ → List (List ℚ))
    (N : ℕ) (X : List ℚ) :
    solverSystem F N X = F (unpackP N X) (unpackY N X) (unpackW N X) (unpackM N X)
      ∧ solverJacobian J N X = J (unpackP N X) (unpackY N X) (unpackW N X) (unpackM N X)
      ∧ (unpackP N X).head? = some 1
      ∧ (unpackP N X).tail = unpackPsolved N X :=
  ⟨rfl, rfl, rfl, rfl⟩

/-- C7: the compiled numeric residual and Jacobian functions are built at
most once per solver instance: starting from a fresh instance, any number of
successive accesses returns the one compiled function and the state reached
after the first access; an access on a state that already caches `g`
returns exactly `g` and leaves the state untouched (no rebuild); and only an
explicit `_clear_cache` empties the cache again. -/
theorem compiled_functions_cached {Fn : Type} (cS cJ : Fn)
    (s : SolverCache Fn) (k : ℕ) :
    (SolverCache.init.numericSystemAccessIter cS k
        = (cS, ⟨none, some cS⟩)
      ∧ SolverCache.init.numericJacobianAccessIter cJ k
        = (cJ, ⟨some cJ, none⟩))
      ∧ (∀ g : Fn, s.numericSystem = some g → s.numericSystemAccess cS = (g, s))
      ∧ (∀ g : Fn, s.numericJacobian = some g → s.numericJacobianAccess cJ = (g, s))
      ∧ s.clearCache.numericSystem = none
      ∧ s.clearCache.numericJacobian = none := by
  refine ⟨⟨?_, ?_⟩, ?_, ?_, rfl, rfl⟩
  · induction k with
    | zero => rfl
    | succ k ih =>
        rw [SolverCache.numericSystemAccessIter, ih]
        rfl
  · induction k with
    | zero => rfl
    | succ k ih =>
        rw [SolverCache.numericJacobianAccessIter, ih]
        rfl
  · intro g hg
    unfold SolverCache.numericSystemAccess
    rw [hg]
  · intro g hg
    unfold SolverCache.numericJacobianAccess
    rw [hg]

/-- C7 witness: with `Fn := ℕ` and compiled values `5` and `9`, three
accesses from a fresh instance return the once-compiled function and the
state after the first access; an access on a caching state returns the
cached value unchanged; clearing empties the cache. -/
theorem compiled_functions_cached_witness :
    ((SolverCache.init.numericSystemAccessIter 5 2 = (5, ⟨none, some 5⟩)
      ∧ SolverCache.init.numericJacobianAccessIter 9 2 = (9, ⟨some 9, none⟩))
      ∧ (SolverCache.numericSystemAccess 5 ⟨some 9, some 7⟩ = (7, ⟨some 9, some 7⟩)))
      ∧ SolverCache.clearCache (⟨some 9, some 7⟩ : SolverCache ℕ) = ⟨none, none⟩ :=
  ⟨⟨(compiled_functions_cached 5 9 ⟨some 9, some 7⟩ 2).1,
    (compiled_functions_cached 5 9 ⟨some 9, some 7⟩ 2).2.1 7 rfl⟩, rfl⟩

/-- C8: `solve` never silently mislabels a non-equilibrium: the convergence
flag is true exactly when the returned iterate's residual is within
tolerance, and on failure the result still carries the best-found (final)
iterate together with a non-empty diagnostic message. -/
theorem solve_failure_semantics (F jacStep fdStep : List ℚ → List ℚ)
    (withJacobian : Bool) (guess : List ℚ) (tol : ℚ) (maxiter : ℕ) :
    ((solve F jacStep fdStep withJacobian guess tol maxiter).success = true
        ↔ residualNorm (F (solve F jacStep fdStep withJacobian guess tol maxiter).x) ≤ tol)
      ∧ ((solve F jacStep fdStep withJacobian guess tol maxiter).success = false →
          (solve F jacStep fdStep withJacobian guess tol maxiter).message ≠ ""
            ∧ (solve F jacStep fdStep withJacobian guess tol maxiter).x
              = rootIter F (if withJacobian then jacStep else fdStep) tol maxiter guess) := by
  unfold solve optimizeRoot
  by_cases hc :
      residualNorm (F (rootIter F (if withJacobian then jacStep else fdStep) tol maxiter guess)) ≤ tol
  · simp [hc]
  · simp [hc]

/-- C8 witness: with residual `F = id`, guess `[1]`, tolerance `0` and an
exhausted budget of `0` iterations, the returned result has `success =
false`, hence a non-empty diagnostic message and the final iterate. -/
theorem solve_failure_semantics_witness :
    (solve (fun x => x) (fun x => x) (fun x => x) true [1] 0 0).success = false
      ∧ (solve (fun x => x) (fun x => x) (fun x => x) true [1] 0 0).message ≠ ""
      ∧ (solve (fun x => x) (fun x => x) (fun x => x) true [1] 0 0).x
        = rootIter (fun x => x) (if true then (fun x => x) else (fun x => x)) 0 0 [1] :=
  ⟨by decide,
    (solve_failure_semantics (fun x => x) (fun x => x) (fun x => x) true [1] 0 0).2
      (by decide)⟩

/-- C2: if `theta[j] = 1` for any city `j`, construction fails with a
descriptive (non-empty) fatal error, and every solve attempt on the
pipeline returns that same error: the numeric system is never built and no
root-finding iteration begins, so the defect cannot surface as a
division-by-zero during residual or Jacobian evaluation. -/
theorem theta_one_fatal_at_construction (p : Params) (j : ℕ)
    (hj : p.theta[j]? = some 1) :
    ∃ msg, modelConstruct p = Except.error msg ∧ msg ≠ ""
      ∧ ∀ F jacStep fdStep withJacobian guess tol maxiter,
          buildAndSolve p F jacStep fdStep withJacobian guess tol maxiter
            = Except.error msg := by
  have hmem : (1 : ℚ) ∈ p.theta := by
    have := List.getElem?_eq_some.mp hj
    obtain ⟨hlt, heq⟩ := this
    exact heq ▸ List.getElem_mem hlt
  refine ⟨"elasticity of substitution theta must differ from 1 in every city: the markup theta/(theta-1) is undefined", ?_, ?_, ?_⟩
  · unfold modelConstruct
    rw [if_pos hmem]
  · decide
  · intro F jacStep fdStep withJacobian guess tol maxiter
    unfold buildAndSolve modelConstruct
    rw [if_pos hmem]
    rfl

/-- C2 witness: for the concrete parameter bundle with `theta = [1, 10]`
(city 0 has elasticity 1), construction fails with a non-empty error and
the pipeline propagates it. -/
theorem theta_one_fatal_at_construction_witness :
    (⟨1, (131 : ℚ)/100, 100/131, 1/20, [1, 10]⟩ : Params).theta[0]? = some 1
      ∧ ∃ msg,
          modelConstruct ⟨1, (131 : ℚ)/100, 100/131, 1/20, [1, 10]⟩ = Except.error msg
            ∧ msg ≠ ""
            ∧ ∀ F jacStep fdStep withJacobian guess tol maxiter,
                buildAndSolve ⟨1, (131 : ℚ)/100, 100/131, 1/20, [1, 10]⟩
                  F jacStep fdStep withJacobian guess tol maxiter = Except.error msg :=
  ⟨by decide,
    theta_one_fatal_at_construction ⟨1, (131 : ℚ)/100, 100/131, 1/20, [1, 10]⟩ 0 (by decide)⟩

/-! ## C6: structure of the islands (autarky) initial guess -/

/-- C6: the islands guess is the price block initialized uniformly to 1
(indices `0 ≤ i < N-1`) followed by the nominal-GDP, nominal-wage and
firm-count blocks in that order; for each city `h`, the `Y`/`W`/`M` entries
are the closed-form single-city values computed from that city's own
population `p` and the fixed global parameters only — the entry at offset
`h` of each block is a function of `params` and `population[h]` alone,
independent of every other city. -/
theorem islands_guess_autarky_blocks (gdpFn wageFn firmsFn : Params → ℚ → ℚ)
    (params : Params) (N : ℕ) (population : List ℚ)
    (hpop : population.length = N) (h : ℕ) (p : ℚ)
    (hp : population[h]? = some p) :
    (∀ i, i < N - 1 →
        (islandsGuess gdpFn wageFn firmsFn params N population)[i]? = some 1)
      ∧ (islandsGuess gdpFn wageFn firmsFn params N population)[N - 1 + h]?
          = some (gdpFn params p)
      ∧ (islandsGuess gdpFn wageFn firmsFn params N population)[2 * N - 1 + h]?
          = some (wageFn params p)
      ∧ (islandsGuess gdpFn wageFn firmsFn params N population)[3 * N - 1 + h]?
          = some (firmsFn params p) := by
  have hh : h < population.length := by
    by_contra hc
    push_neg at hc
    rw [List.getElem?_eq_none hc] at hp
    exact Option.noConfusion hp
  have hhN : h < N := hpop ▸ hh
  have htake : population.take N = population := by
    rw [← hpop]
    exact List.take_length population
  have hlenmap : ∀ fn : ℚ → ℚ, ((population.take N).map fn).length = N := by
    intro fn
    rw [List.length_map, htake, hpop]
  refine ⟨?_, ?_, ?_, ?_⟩
  · intro i hi
    unfold islandsGuess
    simp only [List.append_assoc]
    rw [List.getElem?_append]
    rw [if_pos (by simpa [List.length_replicate] using hi)]
    rw [List.getElem?_replicate, if_pos hi]
  · unfold islandsGuess
    simp only [List.append_assoc]
    rw [List.getElem?_append_right (by simp [List.length_replicate])]
    have e1 : N - 1 + h - (List.replicate (N - 1) (1 : ℚ)).length = h := by
      simp only [List.length_replicate]
      omega
    rw [e1, List.getElem?_append]
    rw [if_pos (by rw [hlenmap]; exact hhN)]
    rw [htake, List.getElem?_map, hp]
    rfl
  · unfold islandsGuess
    simp only [List.append_assoc]
    rw [List.getElem?_append_right (by simp only [List.length_replicate]; omega)]
    have e1 : 2 * N - 1 + h - (List.replicate (N - 1) (1 : ℚ)).length = N + h := by
      simp only [List.length_replicate]
      omega
    rw [e1]
    rw [List.getElem?_append_right (by rw [hlenmap]; omega)]
    have e2 : N + h - ((population.take N).map (gdpFn params)).length = h := by
      rw [hlenmap]
      omega
    rw [e2, List.getElem?_append]
    rw [if_pos (by rw [hlenmap]; exact hhN)]
    rw [htake, List.getElem?_map, hp]
    rfl
  · unfold islandsGuess
    simp only [List.append_assoc]
    rw [List.getElem?_append_right (by simp only [List.length_replicate]; omega)]
    have e1 : 3 * N - 1 + h - (List.replicate (N - 1) (1 : ℚ)).length = 2 * N + h := by
      simp only [List.length_replicate]
      omega
    rw [e1]
    rw [List.getElem?_append_right (by rw [hlenmap]; omega)]
    have e2 : 2 * N + h - ((population.take N).map (gdpFn params)).length = N + h := by
      rw [hlenmap]
      omega
    rw [e2]
    rw [List.getElem?_append_right (by rw [hlenmap]; omega)]
    have e3 : N + h - ((population.take N).map (wageFn params)).length = h := by
      rw [hlenmap]
      omega
    rw [e3, htake, List.getElem?_map, hp]
    rfl

/-- C6 witness: at `N = 2`, `population = [7, 8]` and concrete closed
forms, the guess `[1, g(7), g(8), w(7), w(8), m(7), m(8)]` has price entry
1 at index 0, GDP entry `g(8) = 16` at index `1 + 1`, wage entry
`w(8) = 24` at index `3 + 1`, and firm-count entry `m(8) = 32` at index
`5 + 1`. -/
theorem islands_guess_autarky_blocks_witness :
    (∀ i, i < 2 - 1 →
        (islandsGuess (fun _ p => 2 * p) (fun _ p => 3 * p) (fun _ p => 4 * p)
          ⟨1, 1, 1, 0, [10, 10]⟩ 2 [7, 8])[i]? = some 1)
      ∧ (islandsGuess (fun _ p => 2 * p) (fun _ p => 3 * p) (fun _ p => 4 * p)
          ⟨1, 1, 1, 0, [10, 10]⟩ 2 [7, 8])[2 - 1 + 1]? = some 16
      ∧ (islandsGuess (fun _ p => 2 * p) (fun _ p => 3 * p) (fun _ p => 4 * p)
          ⟨1, 1, 1, 0, [10, 10]⟩ 2 [7, 8])[2 * 2 - 1 + 1]? = some 24
      ∧ (islandsGuess (fun _ p => 2 * p) (fun _ p => 3 * p) (fun _ p => 4 * p)
          ⟨1, 1, 1, 0, [10, 10]⟩ 2 [7, 8])[3 * 2 - 1 + 1]? = some 32 := by
  have hblocks := islands_guess_autarky_blocks (fun _ p => 2 * p) (fun _ p => 3 * p)
    (fun _ p => 4 * p) ⟨1, 1, 1, 0, [10, 10]⟩ 2 [7, 8] (by decide) 1 8 (by decide)
  refine ⟨hblocks.1, ?_, ?_, ?_⟩
  · rw [hblocks.2.1]
    norm_num
  · rw [hblocks.2.2.1]
    norm_num
  · rw [hblocks.2.2.2]
    norm_num

/-! ## C4: the residual system has exactly 3N equations -/

/-- C4: the symbolic equation builder produces exactly `3N` scalar residual
expressions for a model with `N` cities, and for every city `h` it contains
that city's goods-market-clearing, labor-market-clearing and
resource-constraint equations. -/
theorem symbolic_system_three_per_city (e : Env) :
    (symbolic_system e).length = 3 * e.N
      ∧ ∀ h, h < e.N →
          goods_market_clearing e h ∈ symbolic_system e
            ∧ labor_market_clearing e h ∈ symbolic_system e
            ∧ resource_constraint e h ∈ symbolic_system e := by
  constructor
  · unfold symbolic_system
    rw [List.length_flatMap]
    induction e.N with
    | zero => rfl
    | succ k ih =>
        rw [List.range_succ, List.map_append, List.sum_append, ih]
        simp
        omega
  · intro h hh
    refine ⟨?_, ?_, ?_⟩ <;>
      · unfold symbolic_system
        rw [List.mem_flatMap]
        exact ⟨h, List.mem_range.mpr hh, by simp⟩

/-- C4 witness: for a concrete 2-city environment the system has
`3 · 2 = 6` equations and contains city 0's three equations. -/
theorem symbolic_system_three_per_city_witness :
    (symbolic_system ⟨2, 1, 1, fun _ => 10, fun _ _ => 1, fun _ => 1,
        fun _ => 1, fun _ => 1, fun _ => 1, fun _ => 1⟩).length = 3 * 2
      ∧ goods_market_clearing ⟨2, 1, 1, fun _ => 10, fun _ _ => 1, fun _ => 1,
          fun _ => 1, fun _ => 1, fun _ => 1, fun _ => 1⟩ 0
        ∈ symbolic_system ⟨2, 1, 1, fun _ => 10, fun _ _ => 1, fun _ => 1,
          fun _ => 1, fun _ => 1, fun _ => 1, fun _ => 1⟩ :=
  ⟨(symbolic_system_three_per_city _).1,
    ((symbolic_system_three_per_city _).2 0 (by norm_num)).1⟩

/-! ## C5: marginal cost -/

/-- C5: the marginal-cost sub-expression is nominal wage divided by labor
productivity, labor productivity being `phi` divided by the economic
distance; whenever the wage `W[h]` is 2.0 and the labor productivity
evaluates to 4.0, the marginal cost evaluates to exactly 0.5. -/
theorem marginal_costs_value (e : Env) (h j : ℕ)
    (hw : e.W h = 2) (hprod : labor_productivity e h j = 4) :
    marginal_costs e h j = 1 / 2 := by
  unfold marginal_costs
  rw [hw, hprod]
  norm_num

/-- C5 witness: in an environment with `phi = 4`, `delta[h,j] = 1` (labor
productivity `4/1 = 4`) and wage 2, the marginal cost is `0.5`. -/
theorem marginal_costs_value_witness :
    (⟨1, 1, 4, fun _ => 10, fun _ _ => 1, fun _ => 1, fun _ => 1, fun _ => 1,
        fun _ => 2, fun _ => 1⟩ : Env).W 0 = 2
      ∧ labor_productivity ⟨1, 1, 4, fun _ => 10, fun _ _ => 1, fun _ => 1,
          fun _ => 1, fun _ => 1, fun _ => 2, fun _ => 1⟩ 0 0 = 4
      ∧ marginal_costs ⟨1, 1, 4, fun _ => 10, fun _ _ => 1, fun _ => 1,
          fun _ => 1, fun _ => 1, fun _ => 2, fun _ => 1⟩ 0 0 = 1 / 2 := by
  have hprod : labor_productivity ⟨1, 1, 4, fun _ => 10, fun _ _ => 1, fun _ => 1,
      fun _ => 1, fun _ => 1, fun _ => 2, fun _ => 1⟩ 0 0 = 4 := by
    unfold labor_productivity
    norm_num
  exact ⟨rfl, hprod, marginal_costs_value _ 0 0 rfl hprod⟩

/-! ## C10: demand is strictly decreasing in the price -/

/-- C10: for every city `j` with elasticity of substitution `theta[j] > 0`,
positive price level `P[j]` and positive nominal GDP `Y[j]`, the
quantity-demanded expression `relative_price(price, j)^(-theta[j]) *
real_gdp(j)` is strictly decreasing in the good's price over positive
prices. -/
theorem quantity_demand_strict_anti (e : Env) (j : ℕ)
    (hθ : 0 < e.theta j) (hP : 0 < e.P j) (hY : 0 < e.Y j)
    (p₁ p₂ : ℝ) (hp₁ : 0 < p₁) (h12 : p₁ < p₂) :
    quantity_demand e p₂ j < quantity_demand e p₁ j := by
  unfold quantity_demand relative_price real_gdp
  have hr1 : 0 < p₁ / e.P j := div_pos hp₁ hP
  have hr12 : p₁ / e.P j < p₂ / e.P j := (div_lt_div_iff_of_pos_right hP).mpr h12
  have hpow : (p₂ / e.P j) ^ (-(e.theta j)) < (p₁ / e.P j) ^ (-(e.theta j)) :=
    Real.rpow_lt_rpow_of_neg hr1 hr12 (neg_lt_zero.mpr hθ)
  exact mul_lt_mul_of_pos_right hpow (div_pos hY hP)

/-- C10 witness: with `theta = 1`, `P = Y = 1`, demand at price 2 is
strictly below demand at price 1. -/
theorem quantity_demand_strict_anti_witness :
    (0 : ℝ) < (⟨1, 1, 1, fun _ => 1, fun _ _ => 1, fun _ => 1, fun _ => 1,
        fun _ => 1, fun _ => 1, fun _ => 1⟩ : Env).theta 0
      ∧ quantity_demand ⟨1, 1, 1, fun _ => 1, fun _ _ => 1, fun _ => 1,
          fun _ => 1, fun _ => 1, fun _ => 1, fun _ => 1⟩ 2 0
        < quantity_demand ⟨1, 1, 1, fun _ => 1, fun _ _ => 1, fun _ => 1,
          fun _ => 1, fun _ => 1, fun _ => 1, fun _ => 1⟩ 1 0 :=
  ⟨one_pos,
    quantity_demand_strict_anti _ 0 one_pos one_pos one_pos 1 2 one_pos one_lt_two⟩

/-! ## Physical distance matrices (`physical_distance.py`)

`compute_physical_distance` fills two `N×N` arrays with
`great_circle(coords_i, coords_j).kilometers` and
`vincenty(coords_i, coords_j).kilometers` over all ordered pairs of
coordinate rows, and the module then normalizes each matrix by its maximum
entry.  The two distance measures come from the external `geopy` library;
the great-circle one is embedded concretely below, and the matrix-level
theorem is parametric in the distance measure so that it covers the
ellipsoidal (vincenty) variant through its distance-function contract. -/

theorem great_circle_symm (c₁ c₂ : ℝ × ℝ) : great_circle c₁ c₂ = great_circle c₂ c₁ := by
  unfold great_circle
  congr 1
  rw [show radians c₂.2 - radians c₁.2 = -(radians c₁.2 - radians c₂.2) by ring, Real.cos_neg]
  ring_nf

theorem great_circle_self (c : ℝ × ℝ) : great_circle c c = 0 := by
  unfold great_circle
  rw [sub_self, Real.cos_zero, mul_one]
  have hs : Real.sin (radians c.1) * Real.sin (radians c.1)
      + Real.cos (radians c.1) * Real.cos (radians c.1) = 1 := by
    have := Real.sin_sq_add_cos_sq (radians c.1)
    nlinarith [this]
  rw [hs, Real.arccos_one, mul_zero]

theorem great_circle_nonneg (c₁ c₂ : ℝ × ℝ) : 0 ≤ great_circle c₁ c₂ := by
  unfold great_circle
  have hR : (0 : ℝ) ≤ EARTH_RADIUS := by unfold EARTH_RADIUS; norm_num
  exact mul_nonneg hR (Real.arccos_nonneg _)

theorem entry_compute (dist : ℝ × ℝ → ℝ × ℝ → ℝ) (data : List (ℝ × ℝ))
    (i j : ℕ) (hi : i < data.length) (hj : j < data.length) :
    entry (compute_physical_distance dist data) i j
      = dist (data.getD i (0, 0)) (data.getD j (0, 0)) := by
  unfold entry compute_physical_distance
  simp only [List.getD_eq_getElem?_getD, List.getElem?_map,
    List.getElem?_eq_getElem hi, List.getElem?_eq_getElem hj,
    Option.map_some', Option.getD_some]

theorem entry_out_of_range (m : List (List ℝ)) (i j : ℕ)
    (h : m.length ≤ i ∨ ∀ row ∈ m, row.length ≤ j) :
    entry m i j = 0 := by
  unfold entry
  rcases h with hi | hj
  · rw [List.getD_eq_getElem?_getD m i [], List.getElem?_eq_none hi]
    rfl
  · by_cases hi : i < m.length
    · have hrow : m.getD i [] ∈ m := by
        rw [List.getD_eq_getElem _ _ hi]
        exact List.getElem_mem hi
      rw [List.getD_eq_getElem?_getD (m.getD i []) j 0,
        List.getElem?_eq_none (hj _ hrow)]
      rfl
    · push_neg at hi
      rw [List.getD_eq_getElem?_getD m i [], List.getElem?_eq_none hi]
      rfl

theorem foldr_max_nonneg (l : List ℝ) : 0 ≤ l.foldr max 0 := by
  induction l with
  | nil => exact le_refl 0
  | cons a t ih => exact le_trans ih (le_max_right a _)

theorem le_foldr_max (l : List ℝ) (x : ℝ) (hx : x ∈ l) : x ≤ l.foldr max 0 := by
  induction l with
  | nil => cases hx
  | cons a t ih =>
      rcases List.mem_cons.mp hx with h | h
      · rw [h, List.foldr_cons]
        exact le_max_left a _
      · exact le_trans (ih h) (le_max_right a _)

theorem foldr_max_map_div (l : List ℝ) (c : ℝ) (hc : 0 ≤ c) :
    (l.map fun x => x / c).foldr max 0 = l.foldr max 0 / c := by
  induction l with
  | nil => simp
  | cons a t ih =>
      rw [List.map_cons, List.foldr_cons, ih, List.foldr_cons,
        max_div_div_right hc]

theorem entry_le_matrixMax (m : List (List ℝ)) (i j : ℕ) :
    entry m i j ≤ matrixMax m := by
  have hmm : 0 ≤ matrixMax m := by
    unfold matrixMax
    exact foldr_max_nonneg _
  by_cases hi : i < m.length
  · by_cases hj : j < (m.getD i []).length
    · have hrow : m.getD i [] ∈ m := by
        rw [List.getD_eq_getElem _ _ hi]
        exact List.getElem_mem hi
      have h1 : entry m i j ≤ (m.getD i []).foldr max 0 := by
        unfold entry
        refine le_foldr_max _ _ ?_
        rw [List.getD_eq_getElem _ _ hj]
        exact List.getElem_mem hj
      have h2 : (m.getD i []).foldr max 0 ≤ matrixMax m := by
        unfold matrixMax
        exact le_foldr_max _ _ (List.mem_map_of_mem _ hrow)
      exact le_trans h1 h2
    · push_neg at hj
      have hz : entry m i j = 0 := by
        unfold entry
        rw [List.getD_eq_getElem?_getD (m.getD i []) j 0, List.getElem?_eq_none hj]
        rfl
      rw [hz]
      exact hmm
  · push_neg at hi
    rw [entry_out_of_range m i j (Or.inl hi)]
    exact hmm

theorem entry_normalize (m : List (List ℝ)) (i j : ℕ) :
    entry (normalizeByMax m) i j = entry m i j / matrixMax m := by
  by_cases hi : i < m.length
  · by_cases hj : j < m[i].length
    · have hL : entry (normalizeByMax m) i j = m[i][j] / matrixMax m := by
        unfold entry normalizeByMax
        simp only [List.getD_eq_getElem?_getD, List.getElem?_map,
          List.getElem?_eq_getElem hi, List.getElem?_eq_getElem hj,
          Option.map_some', Option.getD_some]
      have hR : entry m i j = m[i][j] := by
        unfold entry
        simp only [List.getD_eq_getElem?_getD, List.getElem?_eq_getElem hi,
          List.getElem?_eq_getElem hj, Option.getD_some]
      rw [hL, hR]
    · push_neg at hj
      have hL : entry (normalizeByMax m) i j = 0 := by
        unfold entry normalizeByMax
        simp only [List.getD_eq_getElem?_getD, List.getElem?_map,
          List.getElem?_eq_getElem hi, Option.map_some', Option.getD_some,
          List.getElem?_eq_none hj, Option.map_none', Option.getD_none]
      have hR : entry m i j = 0 := by
        unfold entry
        simp only [List.getD_eq_getElem?_getD, List.getElem?_eq_getElem hi,
          Option.getD_some, List.getElem?_eq_none hj, Option.getD_none]
      rw [hL, hR, zero_div]
  · push_neg at hi
    have hL : entry (normalizeByMax m) i j = 0 := by
      refine entry_out_of_range _ i j (Or.inl ?_)
      unfold normalizeByMax
      rw [List.length_map]
      exact hi
    have hR : entry m i j = 0 := entry_out_of_range _ i j (Or.inl hi)
    rw [hL, hR, zero_div]

theorem matrixMax_map_div (m : List (List ℝ)) (c : ℝ) (hc : 0 ≤ c) :
    matrixMax (m.map fun row => row.map fun x => x / c) = matrixMax m / c := by
  unfold matrixMax
  rw [List.map_map]
  have hcomp :
      ((fun row : List ℝ => row.foldr max 0) ∘ fun row : List ℝ => row.map fun x => x / c)
        = fun row : List ℝ => row.foldr max 0 / c := by
    funext row
    exact foldr_max_map_div row c hc
  rw [hcomp]
  have hmm : (m.map fun row : List ℝ => row.foldr max 0 / c)
      = (m.map fun row : List ℝ => row.foldr max 0).map fun x => x / c := by
    rw [List.map_map]
    rfl
  rw [hmm, foldr_max_map_div _ c hc]

theorem matrixMax_normalize (m : List (List ℝ)) (hpos : 0 < matrixMax m) :
    matrixMax (normalizeByMax m) = 1 := by
  unfold normalizeByMax
  rw [matrixMax_map_div m _ (le_of_lt hpos)]
  exact div_self (ne_of_gt hpos)

/-- C9 counterexample: the claim fails for a dataset whose cities all lie
at one point.  For the 2-city coordinate data `[(0,0), (0,0)]` every
great-circle distance is 0, the matrix maximum is 0, and after
normalization by the maximum the maximum entry is 0, not 1 (numerically,
numpy's `0/0` is NaN). -/
theorem normalized_distance_counterexample :
    matrixMax (normalizeByMax
        (compute_physical_distance great_circle [((0 : ℝ), (0 : ℝ)), (0, 0)])) ≠ 1 := by
  have h00 : great_circle ((0 : ℝ), (0 : ℝ)) (0, 0) = 0 := great_circle_self _
  unfold compute_physical_distance
  simp only [List.map_cons, List.map_nil, h00]
  unfold normalizeByMax matrixMax
  simp only [List.map_cons, List.map_nil, List.foldr_cons, List.foldr_nil, zero_div]
  norm_num

/-- C9 (amended): for a distance measure that is symmetric, zero on the
diagonal and non-negative (as the great-circle and vincenty geodesic
distances are), the matrix built by `compute_physical_distance` on every
N-city coordinate dataset is N×N, symmetric, non-negative, with zero
diagonal; and whenever its maximum entry is positive (some pair of cities
at positive distance), after normalization by the maximum every entry lies
in `[0, 1]` and the maximum entry equals 1.  The structural conjuncts hold
for every dataset; only the normalization clause needs the positive
maximum. -/
theorem distance_matrix_properties (dist : ℝ × ℝ → ℝ × ℝ → ℝ)
    (data : List (ℝ × ℝ))
    (hsymm : ∀ a b, dist a b = dist b a)
    (hself : ∀ a, dist a a = 0)
    (hnonneg : ∀ a b, 0 ≤ dist a b) :
    (compute_physical_distance dist data).length = data.length
      ∧ (∀ row ∈ compute_physical_distance dist data, row.length = data.length)
      ∧ (∀ i j, entry (compute_physical_distance dist data) i j
          = entry (compute_physical_distance dist data) j i)
      ∧ (∀ i, entry (compute_physical_distance dist data) i i = 0)
      ∧ (∀ i j, 0 ≤ entry (compute_physical_distance dist data) i j)
      ∧ (0 < matrixMax (compute_physical_distance dist data) →
          (∀ i j, 0 ≤ entry (normalizeByMax (compute_physical_distance dist data)) i j
              ∧ entry (normalizeByMax (compute_physical_distance dist data)) i j ≤ 1)
            ∧ matrixMax (normalizeByMax (compute_physical_distance dist data)) = 1) := by
  have hrows : ∀ row ∈ compute_physical_distance dist data, row.length = data.length := by
    intro row hrow
    unfold compute_physical_distance at hrow
    obtain ⟨c, _, hc⟩ := List.mem_map.mp hrow
    rw [← hc, List.length_map]
  have hnn : ∀ i j, 0 ≤ entry (compute_physical_distance dist data) i j := by
    intro i j
    by_cases hi : i < data.length
    · by_cases hj : j < data.length
      · rw [entry_compute dist data i j hi hj]
        exact hnonneg _ _
      · push_neg at hj
        rw [entry_out_of_range _ i j (Or.inr (fun row hrow => (hrows row hrow) ▸ hj))]
    · push_neg at hi
      rw [entry_out_of_range _ i j
        (Or.inl (by rw [compute_physical_distance, List.length_map]; exact hi))]
  refine ⟨?_, hrows, ?_, ?_, hnn, ?_⟩
  · unfold compute_physical_distance
    rw [List.length_map]
  · intro i j
    by_cases hi : i < data.length
    · by_cases hj : j < data.length
      · rw [entry_compute dist data i j hi hj, entry_compute dist data j i hj hi]
        exact hsymm _ _
      · push_neg at hj
        rw [entry_out_of_range _ i j (Or.inr (fun row hrow => (hrows row hrow) ▸ hj)),
          entry_out_of_range _ j i
            (Or.inl (by rw [compute_physical_distance, List.length_map]; exact hj))]
    · push_neg at hi
      rw [entry_out_of_range _ i j
          (Or.inl (by rw [compute_physical_distance, List.length_map]; exact hi)),
        entry_out_of_range _ j i (Or.inr (fun row hrow => (hrows row hrow) ▸ hi))]
  · intro i
    by_cases hi : i < data.length
    · rw [entry_compute dist data i i hi hi]
      exact hself _
    · push_neg at hi
      exact entry_out_of_range _ i i
        (Or.inl (by rw [compute_physical_distance, List.length_map]; exact hi))
  · intro hpos
    refine ⟨?_, matrixMax_normalize _ hpos⟩
    intro i j
    rw [entry_normalize]
    constructor
    · exact div_nonneg (hnn i j) (le_of_lt hpos)
    · rw [div_le_one hpos]
      exact entry_le_matrixMax _ i j

theorem great_circle_quarter : great_circle ((0 : ℝ), (0 : ℝ)) (0, 90)
    = EARTH_RADIUS * (Real.pi / 2) := by
  unfold great_circle radians
  simp only [zero_mul, Real.sin_zero, Real.cos_zero, mul_zero, zero_add, one_mul]
  rw [show (0 : ℝ) - 90 * (Real.pi / 180) = -(Real.pi / 2) by ring]
  rw [Real.cos_neg, Real.cos_pi_div_two, Real.arccos_zero]

/-- C9 witness: for the 2-city dataset `[(0,0), (0,90)]` (equator points a
quarter circle apart), the great-circle distance matrix is 2×2 with a
positive maximum, so the amended theorem applies: after normalization the
maximum entry is 1, and the matrix that was built is symmetric with zero
diagonal at the off-diagonal/diagonal entries. -/
theorem distance_matrix_properties_witness :
    (compute_physical_distance great_circle [((0 : ℝ), (0 : ℝ)), (0, 90)]).length = 2
      ∧ entry (compute_physical_distance great_circle [((0 : ℝ), (0 : ℝ)), (0, 90)]) 0 1
        = entry (compute_physical_distance great_circle [((0 : ℝ), (0 : ℝ)), (0, 90)]) 1 0
      ∧ entry (compute_physical_distance great_circle [((0 : ℝ), (0 : ℝ)), (0, 90)]) 0 0 = 0
      ∧ matrixMax (normalizeByMax
          (compute_physical_distance great_circle [((0 : ℝ), (0 : ℝ)), (0, 90)])) = 1 := by
  have hx : 0 < EARTH_RADIUS * (Real.pi / 2) := by
    unfold EARTH_RADIUS
    positivity
  have h11 : great_circle ((0 : ℝ), (0 : ℝ)) ((0 : ℝ), (0 : ℝ)) = 0 := great_circle_self _
  have h22 : great_circle ((0 : ℝ), (90 : ℝ)) ((0 : ℝ), (90 : ℝ)) = 0 := great_circle_self _
  have h21 : great_circle ((0 : ℝ), (90 : ℝ)) ((0 : ℝ), (0 : ℝ))
      = EARTH_RADIUS * (Real.pi / 2) := by
    rw [great_circle_symm]
    exact great_circle_quarter
  have hpos : 0 < matrixMax (compute_physical_distance great_circle
      [((0 : ℝ), (0 : ℝ)), (0, 90)]) := by
    unfold compute_physical_distance matrixMax
    simp only [List.map_cons, List.map_nil, List.foldr_cons, List.foldr_nil,
      h11, h22, h21, great_circle_quarter]
    positivity
  have h := distance_matrix_properties great_circle [((0 : ℝ), (0 : ℝ)), (0, 90)]
    great_circle_symm great_circle_self great_circle_nonneg
  refine ⟨?_, h.2.2.1 0 1, h.2.2.2.1 0, (h.2.2.2.2.2 hpos).2⟩
  rw [h.1]
  rfl

end WealthOfCities
